import Mathlib

/-!
Verification of the ScanLag growth-curve analysis core.

The development shallowly embeds the growth-curve fitting engine
(growth_curve.py), the lattice index helper (utilities.py) and the
clustering entry point referenced by the unit tests.  Measurement
arithmetic from the source, performed there on floating point values, is
modelled exactly over the rationals; comparisons against a standard
deviation (a square root) are encoded by the equivalent squared
comparisons, with bridge lemmas relating the encoding to the real-valued
formulation.  Real-valued transcendental formulas (the Gompertz model,
doubling time) are modelled over the reals.  Fallible operations return
an Except value mirroring the exceptions raised by the source.
-/

namespace ScanLag

/-- Error taxonomy used by the source: ValueError for malformed
arguments (also raised by the builtin max on an empty sequence) and
IndexError for out-of-range element access. -/
inductive PyError
  | valueError
  | indexError
deriving DecidableEq, Repr

instance {ε α : Type} [DecidableEq ε] [DecidableEq α] : DecidableEq (Except ε α) := fun a b =>
  match a, b with
  | Except.ok x, Except.ok y =>
    if h : x = y then isTrue (by rw [h]) else isFalse (fun hc => h (Except.ok.inj hc))
  | Except.error e, Except.error f =>
    if h : e = f then isTrue (by rw [h]) else isFalse (fun hc => h (Except.error.inj hc))
  | Except.ok _, Except.error _ => isFalse (fun hc => Except.noConfusion hc)
  | Except.error _, Except.ok _ => isFalse (fun hc => Except.noConfusion hc)

/-! ## Heuristic parameter estimation (growth_curve.py, estimate_parameters) -/

/-- First-difference series of a measurement list, as numpy diff:
element i is measurements[i + 1] - measurements[i]. -/
def npDiff (xs : List ℚ) : List ℚ := List.zipWith (fun b a => b - a) xs.tail xs

/-- Arithmetic mean, as numpy mean (population statistics). -/
def listMean (xs : List ℚ) : ℚ := xs.sum / (xs.length : ℚ)

/-- Population variance, the square of numpy std. -/
def listVar (xs : List ℚ) : ℚ :=
  ((xs.map (fun x => (x - listMean xs) ^ 2)).sum) / (xs.length : ℚ)

/-- The inflection test of the source, difference > mean + std, encoded
without the square root: for a nonnegative variance v the comparison
d > m + sqrt v holds exactly when d - m is positive and its square
exceeds v.  The lemma exceedsB_eq_real below proves the equivalence. -/
def exceedsB (d m v : ℚ) : Bool := (decide (0 < d - m)) && (decide (v < (d - m) ^ 2))

/-- The inflection test instantiated with the statistics of the
first-difference series of a measurement list. -/
def inflExceeds (measurements : List ℚ) (d : ℚ) : Bool :=
  exceedsB d (listMean (npDiff measurements)) (listVar (npDiff measurements))

/-- The builtin max of a list: it raises ValueError on an empty sequence. -/
def pyMax : List ℚ → Except PyError ℚ
  | [] => Except.error PyError.valueError
  | x :: xs => Except.ok (xs.foldl max x)

/-- Index bump from the source loop: if i == 0 then i += 1. -/
def bumpIdx (i : ℕ) : ℕ := if i = 0 then 1 else i

/-- The slice diffs[j - 1 : -1] of the source, from index j - 1 up to
but excluding the final element. -/
def lagSlice (ds : List ℚ) (j : ℕ) : List ℚ :=
  (ds.drop (j - 1)).take (ds.length - 1 - (j - 1))

/-- The lag time and growth rate loop of estimate_parameters: scan the
differences in order; at the first difference exceeding the inflection
threshold, bump a zero index to one, then return the timestamp at the
index before the (bumped) hit together with the max of the slice
diffs[j - 1 : -1]; if no difference exceeds, return (0, 0). -/
def lagGrowthGo (ts ds : List ℚ) (m v : ℚ) : ℕ → List ℚ → Except PyError (ℚ × ℚ)
  | _, [] => Except.ok (0, 0)
  | i, d :: rest =>
    if exceedsB d m v then
      match pyMax (lagSlice ds (bumpIdx i)) with
      | Except.error e => Except.error e
      | Except.ok g => Except.ok (ts.getD (bumpIdx i - 1) 0, g)
    else lagGrowthGo ts ds m v (i + 1) rest

/-- GrowthCurve.estimate_parameters: raises ValueError when the inputs
have different lengths; indexing measurements[-1] raises IndexError on
an empty list; the carrying capacity is the first measurement within one
standard deviation of the final one (encoded by the equivalent squared
comparison, see capacity_within_eq_real), defaulting to the final
measurement; lag time and growth rate come from the inflection scan.
For a single measurement numpy would produce NaN statistics and leave
the scan loops without effect; the rational model returns the same
values there (the scan finds the final measurement itself and the
difference list is empty). -/
def estimate_parameters (timestamps measurements : List ℚ) : Except PyError (ℚ × ℚ × ℚ) :=
  if timestamps.length ≠ measurements.length then Except.error PyError.valueError
  else
    match measurements.getLast? with
    | none => Except.error PyError.indexError
    | some last =>
      let ds := npDiff measurements
      let m := listMean ds
      let v := listVar ds
      let carrying := (measurements.find? (fun mm => decide ((mm - last) ^ 2 ≤ v))).getD last
      match lagGrowthGo timestamps ds m v 0 ds with
      | Except.error e => Except.error e
      | Except.ok (lag, growth) => Except.ok (lag, growth, carrying)

/-! ## The Gompertz model (growth_curve.py, gompertz) -/

/-- The scipy logsumexp reduction applied to a scalar argument, exactly
what the source passes it: log of the sum of exponentials of a single
value, which is the identity. -/
noncomputable def logsumexp1 (a : ℝ) : ℝ := Real.log (Real.exp a)

/-- The math exp of the source: it raises OverflowError when its
argument exceeds the overflow bound of the floating point type.  The
bound is kept abstract as a parameter. -/
noncomputable def expOv (bound x : ℝ) : Except Unit ℝ :=
  if x ≤ bound then Except.ok (Real.exp x) else Except.error ()

/-- GrowthCurve.gompertz as the source computes it: the inner scalar
logsumexp is the identity, so the value is
initial_size + carrying_capacity * exp(-(z + 1)) with
z = growth_rate * e / carrying_capacity * (lag_time - elapsed_time),
and an OverflowError from the outer exp is caught and turned into 0. -/
noncomputable def gompertz
    (bound elapsed_time initial_size lag_time growth_rate carrying_capacity : ℝ) : ℝ :=
  match expOv bound
      (-(logsumexp1 (growth_rate * Real.exp 1 / carrying_capacity *
        (lag_time - elapsed_time) + 1))) with
  | Except.ok v => initial_size + carrying_capacity * v
  | Except.error _ => 0

/-- The Gompertz reference function named by the documentation of the
source and by the specification:
initial_size + carrying_capacity * exp(-exp(z + 1)). -/
noncomputable def gompertzRef
    (elapsed_time initial_size lag_time growth_rate carrying_capacity : ℝ) : ℝ :=
  initial_size + carrying_capacity *
    Real.exp (-(Real.exp (growth_rate * Real.exp 1 / carrying_capacity *
      (lag_time - elapsed_time) + 1)))

/-! ## The GrowthCurve cached state (growth_curve.py, class GrowthCurve) -/

/-- The four hidden per-class slots set to None by the subclass hook.
Times are held as seconds. -/
structure GCState where
  lag_time : Option ℝ
  growth_rate : Option ℝ
  carrying_capacity : Option ℝ
  doubling_time : Option ℝ

/-- The state installed by the subclass initialisation hook: every slot
is None. -/
def initGCState : GCState := ⟨none, none, none, none⟩

/-- GrowthCurve.fit_growth_curve, with the scipy optimizer abstracted as
its outcome: some (y0, lag, rate, capacity) when curve_fit returns, none
when it raises the nonconvergence RuntimeError (absorbed by the private
fitting helper).  On success the last three tuple components are stored;
on failure all three stored parameters become 0.  The doubling time slot
is never written. -/
def fit_growth_curve (results : Option (ℝ × ℝ × ℝ × ℝ)) (s : GCState) : GCState :=
  match results with
  | some (_, lt, gr, cc) =>
    { s with lag_time := some lt, growth_rate := some gr, carrying_capacity := some cc }
  | none =>
    { s with lag_time := some 0, growth_rate := some 0, carrying_capacity := some 0 }

/-- The lag_time property: fit on first access, then read the slot. -/
def getLagTime (results : Option (ℝ × ℝ × ℝ × ℝ)) (s : GCState) : ℝ × GCState :=
  match s.lag_time with
  | some v => (v, s)
  | none =>
    let s2 := fit_growth_curve results s
    (s2.lag_time.getD 0, s2)

/-- The growth_rate property: fit on first access, then read the slot. -/
def getGrowthRate (results : Option (ℝ × ℝ × ℝ × ℝ)) (s : GCState) : ℝ × GCState :=
  match s.growth_rate with
  | some v => (v, s)
  | none =>
    let s2 := fit_growth_curve results s
    (s2.growth_rate.getD 0, s2)

/-- The carrying_capacity property: fit on first access, then read the
slot. -/
def getCarryingCapacity (results : Option (ℝ × ℝ × ℝ × ℝ)) (s : GCState) : ℝ × GCState :=
  match s.carrying_capacity with
  | some v => (v, s)
  | none =>
    let s2 := fit_growth_curve results s
    (s2.carrying_capacity.getD 0, s2)

/-- The doubling_time property body: ln 2 / growth_rate when the rate is
positive, otherwise a zero duration. -/
noncomputable def doubling_time (growth_rate : ℝ) : ℝ :=
  if 0 < growth_rate then Real.log 2 / growth_rate else 0

/-- The doubling_time property: it reads the growth_rate property
(possibly fitting first) and recomputes ln 2 / rate on every access; no
slot is read or written for it. -/
noncomputable def getDoublingTime (results : Option (ℝ × ℝ × ℝ × ℝ)) (s : GCState) :
    ℝ × GCState :=
  let p := getGrowthRate results s
  (doubling_time p.1, p.2)

/-! ## Lattice index helper (utilities.py, index_number_to_coordinate) -/

/-- index_number_to_coordinate with one-based index and lattice: raises
ValueError when the index or a lattice bound is below one, computes row
and column by floor division and floor modulus (the Python operators),
and raises IndexError when the coordinate would exceed the lattice. -/
def index_number_to_coordinate (index : ℤ) (lattice : ℤ × ℤ) : Except PyError (ℤ × ℤ) :=
  if index < 1 ∨ lattice.1 < 1 ∨ lattice.2 < 1 then Except.error PyError.valueError
  else if lattice.1 < Int.fdiv (index - 1) lattice.2 + 1 ∨
      lattice.2 < Int.fmod (index - 1) lattice.2 + 1 then Except.error PyError.indexError
  else Except.ok (Int.fdiv (index - 1) lattice.2 + 1, Int.fmod (index - 1) lattice.2 + 1)

/-! ## Clustering entry point (colony.py, colonies_from_timepoints) -/

/-- Modelled from the spec: the direct-link test of the clustering
engine, the module of which (colony.py) is absent from the sources with
only its unit test present.  Two detections are linked when the
Euclidean distance between their centers is at most the threshold; the
comparison is encoded by the equivalent squared comparison, exact over
the rationals, with a negative threshold linking nothing. -/
def linkedB (distance : ℚ) (p q : ℚ × ℚ) : Bool :=
  (decide (0 ≤ distance)) && (decide ((p.1 - q.1) ^ 2 + (p.2 - q.2) ^ 2 ≤ distance ^ 2))

/-- Modelled from the spec: one step of connected-component clustering;
a new detection is merged with every existing group it links to. -/
def insertLinked (distance : ℚ) (p : ℚ × ℚ) (groups : List (List (ℚ × ℚ))) :
    List (List (ℚ × ℚ)) :=
  let parts := groups.partition (fun g => g.any (linkedB distance p))
  (p :: parts.1.flatten) :: parts.2

/-- Modelled from the spec: colonies_from_timepoints (the cluster
operation) of colony.py, absent from the sources.  Per the spec it fails
with an InvalidArgument error (ValueError) on an empty input collection,
and otherwise groups the detections by the transitive closure of the
within-distance relation, single-linkage connectivity clustering. -/
def colonies_from_timepoints (timepoints : List (ℚ × ℚ)) (distance : ℚ) :
    Except PyError (List (List (ℚ × ℚ))) :=
  if timepoints.isEmpty then Except.error PyError.valueError
  else Except.ok (timepoints.foldl (fun groups p => insertLinked distance p groups) [])

/-! ## Bridge lemmas: the squared encodings agree with the real-valued
comparisons of the source -/

lemma listVar_nonneg (xs : List ℚ) : 0 ≤ listVar xs := by
  unfold listVar
  apply div_nonneg
  · apply List.sum_nonneg
    intro x hx
    simp only [List.mem_map] at hx
    obtain ⟨y, _, rfl⟩ := hx
    positivity
  · positivity

lemma exceedsB_eq_real (d m v : ℚ) :
    exceedsB d m v = true ↔ (m : ℝ) + Real.sqrt (v : ℝ) < (d : ℝ) := by
  simp only [exceedsB, Bool.and_eq_true, decide_eq_true_eq]
  constructor
  · rintro ⟨h1, h2⟩
    have h1R : (0 : ℝ) < (d : ℝ) - (m : ℝ) := by exact_mod_cast h1
    have h2R : (v : ℝ) < ((d : ℝ) - (m : ℝ)) ^ 2 := by exact_mod_cast h2
    have := (Real.sqrt_lt' h1R).mpr h2R
    linarith
  · intro h
    have hs : (0 : ℝ) ≤ Real.sqrt (v : ℝ) := Real.sqrt_nonneg _
    have h1R : (0 : ℝ) < (d : ℝ) - (m : ℝ) := by linarith
    have h2R := (Real.sqrt_lt' h1R).mp (by linarith)
    constructor
    · exact_mod_cast h1R
    · exact_mod_cast h2R

lemma capacity_within_eq_real (mm last v : ℚ) (hv : (0 : ℚ) ≤ v) :
    decide ((mm - last) ^ 2 ≤ v) = true ↔
      ((last : ℝ) - Real.sqrt (v : ℝ) ≤ (mm : ℝ) ∧
        (mm : ℝ) ≤ (last : ℝ) + Real.sqrt (v : ℝ)) := by
  rw [decide_eq_true_eq]
  have hvR : (0 : ℝ) ≤ (v : ℝ) := by exact_mod_cast hv
  constructor
  · intro h
    have hR : ((mm : ℝ) - (last : ℝ)) ^ 2 ≤ (v : ℝ) := by exact_mod_cast h
    have habs : |(mm : ℝ) - (last : ℝ)| ≤ Real.sqrt (v : ℝ) := by
      rw [← Real.sqrt_sq_eq_abs]
      exact (Real.sqrt_le_sqrt_iff hvR).mpr hR
    rw [abs_le] at habs
    constructor <;> linarith [habs.1, habs.2]
  · rintro ⟨hl, hr⟩
    have habs : |(mm : ℝ) - (last : ℝ)| ≤ Real.sqrt (v : ℝ) :=
      abs_le.mpr ⟨by linarith, by linarith⟩
    have hsq : ((mm : ℝ) - (last : ℝ)) ^ 2 ≤ Real.sqrt (v : ℝ) ^ 2 := by
      rw [← sq_abs]
      exact pow_le_pow_left₀ (abs_nonneg _) habs 2
    rw [Real.sq_sqrt hvR] at hsq
    exact_mod_cast hsq

/-! ## Helper lemmas about the inflection scan -/

lemma drop_eq_cons_facts :
    ∀ (l : List ℚ) (i : ℕ) (d : ℚ) (rest : List ℚ),
      l.drop i = d :: rest → l.getD i 0 = d ∧ l.drop (i + 1) = rest ∧ i < l.length := by
  intro l
  induction l with
  | nil => intro i d rest h; simp at h
  | cons x xs ih =>
    intro i d rest h
    cases i with
    | zero =>
      rw [List.drop_zero] at h
      injection h with h1 h2
      subst h1; subst h2
      exact ⟨rfl, by simp, by simp⟩
    | succ n =>
      rw [List.drop_succ_cons] at h
      obtain ⟨h1, h2, h3⟩ := ih n d rest h
      refine ⟨by simpa using h1, by simpa [List.drop_succ_cons] using h2, by simpa using h3⟩

lemma foldl_max_le_init (xs : List ℚ) : ∀ a : ℚ, a ≤ xs.foldl max a := by
  induction xs with
  | nil => intro a; simp
  | cons x xs ih =>
    intro a
    rw [List.foldl_cons]
    exact le_trans (le_max_left a x) (ih (max a x))

lemma foldl_max_le_mem (xs : List ℚ) : ∀ (a y : ℚ), y ∈ xs → y ≤ xs.foldl max a := by
  induction xs with
  | nil => intro a y h; cases h
  | cons x xs ih =>
    intro a y h
    rw [List.foldl_cons]
    rcases List.mem_cons.mp h with rfl | h2
    · exact le_trans (le_max_right a y) (foldl_max_le_init xs (max a y))
    · exact ih (max a x) y h2

lemma foldl_max_mem (xs : List ℚ) : ∀ a : ℚ, xs.foldl max a = a ∨ xs.foldl max a ∈ xs := by
  induction xs with
  | nil => intro a; left; rfl
  | cons x xs ih =>
    intro a
    rw [List.foldl_cons]
    rcases ih (max a x) with h | h
    · rcases max_cases a x with ⟨he, _⟩ | ⟨he, _⟩
      · left; rw [h, he]
      · right; rw [h, he]; exact List.mem_cons_self x xs
    · right; exact List.mem_cons_of_mem x h

lemma pyMax_spec (l : List ℚ) (hl : l ≠ []) :
    ∃ g, pyMax l = Except.ok g ∧ g ∈ l ∧ ∀ x ∈ l, x ≤ g := by
  obtain ⟨a, t, rfl⟩ := List.exists_cons_of_ne_nil hl
  refine ⟨t.foldl max a, rfl, ?_, ?_⟩
  · rcases foldl_max_mem t a with h | h
    · rw [h]; exact List.mem_cons_self a t
    · exact List.mem_cons_of_mem a h
  · intro x hx
    rcases List.mem_cons.mp hx with rfl | hx2
    · exact foldl_max_le_init t x
    · exact foldl_max_le_mem t a x hx2

lemma exceedsB_head_singleton (d v : ℚ) : exceedsB d (listMean [d]) v = false := by
  have hm : listMean [d] = d := by
    simp [listMean]
  rw [hm]
  simp [exceedsB]

lemma length_two_of_exceed_head (ds : List ℚ) (v : ℚ) (h1 : 0 < ds.length)
    (hex : exceedsB (ds.getD 0 0) (listMean ds) v = true) : 2 ≤ ds.length := by
  by_contra hcon
  have hone : ds.length = 1 := by omega
  obtain ⟨d, rfl⟩ := List.length_eq_one.mp hone
  rw [List.getD_cons_zero, exceedsB_head_singleton] at hex
  cases hex

lemma lagSlice_ne_nil (ds : List ℚ) (j : ℕ) (hj1 : 1 ≤ j) (hj2 : j + 1 ≤ ds.length) :
    lagSlice ds j ≠ [] := by
  have h1 : (lagSlice ds j).length = min (ds.length - 1 - (j - 1)) (ds.length - (j - 1)) := by
    simp [lagSlice, List.length_take, List.length_drop]
  intro hnil
  rw [hnil] at h1
  simp only [List.length_nil] at h1
  omega

lemma bumpIdx_ge_one (i : ℕ) : 1 ≤ bumpIdx i := by
  unfold bumpIdx; split <;> omega

lemma bumpIdx_succ_le (i n : ℕ) (hi : i < n) (h2 : 2 ≤ n) : bumpIdx i + 1 ≤ n := by
  unfold bumpIdx; split <;> omega

lemma lagGrowthGo_found (ts ds : List ℚ) (m v : ℚ) (idx : ℕ)
    (hidx : idx < ds.length) (hex : exceedsB (ds.getD idx 0) m v = true) :
    ∀ (rest : List ℚ) (i : ℕ), ds.drop i = rest → i ≤ idx →
      (∀ k, i ≤ k → k < idx → exceedsB (ds.getD k 0) m v = false) →
      lagGrowthGo ts ds m v i rest =
        (match pyMax (lagSlice ds (bumpIdx idx)) with
         | Except.error e => Except.error e
         | Except.ok g => Except.ok (ts.getD (bumpIdx idx - 1) 0, g)) := by
  intro rest
  induction rest with
  | nil =>
    intro i hdrop hle hk
    exfalso
    have hlen : ds.length ≤ i := List.drop_eq_nil_iff.mp hdrop
    omega
  | cons d rest2 ih =>
    intro i hdrop hle hk
    obtain ⟨hd, hrest2, hilen⟩ := drop_eq_cons_facts ds i d rest2 hdrop
    by_cases hc : exceedsB d m v = true
    · have hie : i = idx := by
        by_contra hne
        have hlt : i < idx := lt_of_le_of_ne hle hne
        have hf := hk i le_rfl hlt
        rw [hd] at hf
        rw [hf] at hc
        cases hc
      subst hie
      simp only [lagGrowthGo, hc, if_true]
    · have hcf : exceedsB d m v = false := by
        cases hcb : exceedsB d m v
        · rfl
        · exact absurd hcb hc
      have hine : i ≠ idx := by
        intro he
        subst he
        rw [hd] at hex
        rw [hex] at hcf
        cases hcf
      simp only [lagGrowthGo, hcf, Bool.false_eq_true, if_false]
      exact ih (i + 1) hrest2 (by omega) (fun k h1 h2 => hk k (by omega) h2)

lemma lagGrowthGo_notfound (ts ds : List ℚ) (m v : ℚ) :
    ∀ (rest : List ℚ) (i : ℕ), ds.drop i = rest →
      (∀ k, i ≤ k → k < ds.length → exceedsB (ds.getD k 0) m v = false) →
      lagGrowthGo ts ds m v i rest = Except.ok (0, 0) := by
  intro rest
  induction rest with
  | nil => intro i _ _; simp [lagGrowthGo]
  | cons d rest2 ih =>
    intro i hdrop hk
    obtain ⟨hd, hrest2, hilen⟩ := drop_eq_cons_facts ds i d rest2 hdrop
    have hcf : exceedsB d m v = false := by
      rw [← hd]
      exact hk i le_rfl hilen
    simp only [lagGrowthGo, hcf, Bool.false_eq_true, if_false]
    exact ih (i + 1) hrest2 (fun k h1 h2 => hk k (by omega) h2)

lemma lagGrowthGo_no_valueError (ts ds : List ℚ) (v : ℚ) :
    ∀ (rest : List ℚ) (i : ℕ), ds.drop i = rest →
      lagGrowthGo ts ds (listMean ds) v i rest ≠ Except.error PyError.valueError := by
  intro rest
  induction rest with
  | nil => intro i _; simp [lagGrowthGo]
  | cons d rest2 ih =>
    intro i hdrop
    obtain ⟨hd, hrest2, hilen⟩ := drop_eq_cons_facts ds i d rest2 hdrop
    by_cases hc : exceedsB d (listMean ds) v = true
    · have h2 : 2 ≤ ds.length := by
        rcases Nat.eq_zero_or_pos i with rfl | hpos
        · exact length_two_of_exceed_head ds v (by omega) (by rw [hd]; exact hc)
        · omega
      obtain ⟨g, hg, _, _⟩ :=
        pyMax_spec _ (lagSlice_ne_nil ds (bumpIdx i) (bumpIdx_ge_one i) (bumpIdx_succ_le i ds.length hilen h2))
      simp [lagGrowthGo, hc, hg]
    · have hcf : exceedsB d (listMean ds) v = false := by
        cases hcb : exceedsB d (listMean ds) v
        · rfl
        · exact absurd hcb hc
      simp only [lagGrowthGo, hcf, Bool.false_eq_true, if_false]
      exact ih (i + 1) hrest2

lemma estimate_parameters_unfold (ts ms : List ℚ) (hlen : ts.length = ms.length)
    (last : ℚ) (hlast : ms.getLast? = some last) :
    estimate_parameters ts ms =
      (match lagGrowthGo ts (npDiff ms) (listMean (npDiff ms)) (listVar (npDiff ms))
          0 (npDiff ms) with
       | Except.error e => Except.error e
       | Except.ok (lag, growth) =>
         Except.ok (lag, growth,
           (ms.find? (fun mm => decide ((mm - last) ^ 2 ≤ listVar (npDiff ms)))).getD last)) := by
  simp only [estimate_parameters, hlen, ne_eq, not_true_eq_false, if_false, hlast]

lemma npDiff_length (ms : List ℚ) : (npDiff ms).length = ms.length - 1 := by
  simp only [npDiff, List.length_zipWith, List.length_tail]
  omega

/-! ## Claim theorems -/

/-- Claim C1: the claim states that gompertz equals the Gompertz
reference definition, the log-sum-exp formulation being only a
numerically stable evaluation of the same function.  The code is wrong:
scipy logsumexp applied to the scalar it is given is the identity, so
the implementation computes exp(-(z + 1)) where the reference function
(cited by the documentation of the source itself) requires
exp(-exp(z + 1)).  At elapsed_time 0, initial_size 0, lag_time 0,
growth_rate 1, carrying_capacity 1 and any overflow bound at least -1
(no overflow occurs there), the code yields exp(-1) while the reference
yields exp(-e), and the two differ. -/
theorem gompertz_differs_from_reference : gompertz 0 0 0 0 1 1 ≠ gompertzRef 0 0 0 1 1 := by
  have h1 : (1 : ℝ) + 1 ≤ Real.exp 1 := Real.add_one_le_exp 1
  have h2 : Real.exp (-(Real.exp 1)) < Real.exp (-1) := Real.exp_lt_exp.mpr (by linarith)
  have hg : gompertz 0 0 0 0 1 1 = Real.exp (-1) := by
    have harg : (1 : ℝ) * Real.exp 1 / 1 * ((0 : ℝ) - 0) + 1 = 1 := by ring
    simp only [gompertz, expOv, logsumexp1, harg, Real.log_exp]
    rw [if_pos (by norm_num)]
    ring
  have hr : gompertzRef 0 0 0 1 1 = Real.exp (-(Real.exp 1)) := by
    have harg : (1 : ℝ) * Real.exp 1 / 1 * ((0 : ℝ) - 0) + 1 = 1 := by ring
    simp only [gompertzRef, harg]
    ring
  rw [hg, hr]
  exact ne_of_gt h2

/-- Claim C2: when the nonlinear optimizer fails to converge (the
curve_fit RuntimeError, absorbed by the private fitting helper so that
the fit outcome is none), fit_growth_curve stores
carrying_capacity = growth_rate = 0 and a zero lag time, raises nothing
(the model is a total function), and the accessors then report those
zero values. -/
theorem fit_growth_curve_nonconvergence (s : GCState) (r2 : Option (ℝ × ℝ × ℝ × ℝ)) :
    (fit_growth_curve none s).lag_time = some 0 ∧
    (fit_growth_curve none s).growth_rate = some 0 ∧
    (fit_growth_curve none s).carrying_capacity = some 0 ∧
    getLagTime r2 (fit_growth_curve none s) = (0, fit_growth_curve none s) ∧
    getGrowthRate r2 (fit_growth_curve none s) = (0, fit_growth_curve none s) ∧
    getCarryingCapacity r2 (fit_growth_curve none s) = (0, fit_growth_curve none s) := by
  refine ⟨rfl, rfl, rfl, ?_, ?_, ?_⟩ <;>
    simp [fit_growth_curve, getLagTime, getGrowthRate, getCarryingCapacity]

/-- Claim C4: the doubling_time accessor returns ln 2 / growth_rate
whenever the growth rate is positive and a zero duration whenever it is
nonpositive. -/
theorem doubling_time_spec (growth_rate : ℝ) :
    (0 < growth_rate → doubling_time growth_rate = Real.log 2 / growth_rate) ∧
    (growth_rate ≤ 0 → doubling_time growth_rate = 0) := by
  constructor
  · intro h
    simp only [doubling_time]
    rw [if_pos h]
  · intro h
    simp only [doubling_time]
    rw [if_neg (not_lt.mpr h)]

/-- Witness for claim C4 at growth rates 1 and -1. -/
theorem doubling_time_spec_witness :
    (0 : ℝ) < 1 ∧ (-1 : ℝ) ≤ 0 ∧
    doubling_time 1 = Real.log 2 / 1 ∧ doubling_time (-1) = 0 :=
  ⟨by norm_num, by norm_num,
    (doubling_time_spec 1).1 (by norm_num), (doubling_time_spec (-1)).2 (by norm_num)⟩

/-- Counterexample to claim C5 as stated: the fit pass does not compute
and cache all four outputs together.  Starting from the initial state,
a successful fit with results (1, 2, 3, 4) stores the three raw
parameters but leaves the doubling time slot at none, and even a
subsequent doubling_time access leaves it at none. -/
theorem fit_growth_curve_doubling_not_cached :
    (fit_growth_curve (some (1, 2, 3, 4)) initGCState).doubling_time = none ∧
    (fit_growth_curve (some (1, 2, 3, 4)) initGCState).lag_time = some 2 ∧
    (fit_growth_curve (some (1, 2, 3, 4)) initGCState).growth_rate = some 3 ∧
    (fit_growth_curve (some (1, 2, 3, 4)) initGCState).carrying_capacity = some 4 ∧
    (getDoublingTime none (fit_growth_curve (some (1, 2, 3, 4)) initGCState)).2.doubling_time
      = none := by
  refine ⟨rfl, rfl, rfl, rfl, ?_⟩
  simp [getDoublingTime, getGrowthRate, fit_growth_curve, initGCState]

/-- Claim C5 (amended): lag_time, growth_rate and carrying_capacity are
computed together by one fit pass and cached; afterwards every accessor
read returns the cached value and leaves the state unchanged, whatever
the optimizer would now return, so no recomputation happens without an
explicit re-fit.  doubling_time, however, is not cached by the fit pass:
its slot is never written, and each access recomputes it from the
cached growth rate (always yielding the same value). -/
theorem growth_params_cached_after_fit (r r2 : Option (ℝ × ℝ × ℝ × ℝ)) (s : GCState) :
    ((fit_growth_curve r s).lag_time.isSome = true ∧
      (fit_growth_curve r s).growth_rate.isSome = true ∧
      (fit_growth_curve r s).carrying_capacity.isSome = true ∧
      (fit_growth_curve r s).doubling_time = s.doubling_time) ∧
    getLagTime r2 (fit_growth_curve r s) =
      ((fit_growth_curve r s).lag_time.getD 0, fit_growth_curve r s) ∧
    getGrowthRate r2 (fit_growth_curve r s) =
      ((fit_growth_curve r s).growth_rate.getD 0, fit_growth_curve r s) ∧
    getCarryingCapacity r2 (fit_growth_curve r s) =
      ((fit_growth_curve r s).carrying_capacity.getD 0, fit_growth_curve r s) ∧
    getDoublingTime r2 (fit_growth_curve r s) =
      (doubling_time ((fit_growth_curve r s).growth_rate.getD 0), fit_growth_curve r s) := by
  rcases r with _ | ⟨a, lt, gr, cc⟩ <;>
    simp [fit_growth_curve, getLagTime, getGrowthRate, getCarryingCapacity, getDoublingTime]

/-- Claim C7: an overflow inside the growth model evaluation, the outer
exponential exceeding the overflow bound of math exp, yields the defined
value 0 instead of propagating an error. -/
theorem gompertz_overflow_clamped
    (bound elapsed_time initial_size lag_time growth_rate carrying_capacity : ℝ)
    (hov : bound < -(logsumexp1 (growth_rate * Real.exp 1 / carrying_capacity *
      (lag_time - elapsed_time) + 1))) :
    gompertz bound elapsed_time initial_size lag_time growth_rate carrying_capacity = 0 := by
  unfold gompertz expOv
  rw [if_neg (not_le.mpr hov)]

/-- Witness for claim C7: with overflow bound -2 the evaluation at
elapsed_time 1, initial_size 0, lag_time 0, growth_rate 1,
carrying_capacity 1 overflows (its outer exponent is e - 1 > -2) and
yields 0. -/
theorem gompertz_overflow_clamped_witness :
    (-2 : ℝ) < -(logsumexp1 ((1 : ℝ) * Real.exp 1 / 1 * ((0 : ℝ) - 1) + 1)) ∧
    gompertz (-2) 1 0 0 1 1 = 0 := by
  have h : (-2 : ℝ) < -(logsumexp1 ((1 : ℝ) * Real.exp 1 / 1 * ((0 : ℝ) - 1) + 1)) := by
    simp only [logsumexp1, Real.log_exp]
    have hp := Real.exp_pos 1
    ring_nf
    nlinarith [Real.exp_pos 1]
  exact ⟨h, gompertz_overflow_clamped (-2) 1 0 0 1 1 h⟩

/-- Claim C8: cluster (colonies_from_timepoints) applied to an empty
detection sequence fails with an InvalidArgument error (ValueError);
clustering is undefined over zero elements.  The operation is modelled
from the spec because colony.py is absent from the sources. -/
theorem colonies_from_timepoints_empty (distance : ℚ) :
    colonies_from_timepoints [] distance = Except.error PyError.valueError := rfl

/-- Counterexample to claim C3 as stated: on timestamps 0..8 and
measurements [0, 0, 0, 0, 0, 0, 2, 5, 5] the first difference exceeding
the inflection threshold is at index 5, the maximum difference observed
up to and including that index is 2, yet the returned growth rate is 3
(the source takes the maximum of diffs[i - 1 : -1], the slice from the
lag index through the second-to-last difference, which here contains the
later difference 3).  Also, on an empty equal-length input the function
raises IndexError rather than returning zeros. -/
theorem estimate_parameters_growth_claim_cex :
    (npDiff [0, 0, 0, 0, 0, 0, 2, 5, 5]).findIdx
      (inflExceeds [0, 0, 0, 0, 0, 0, 2, 5, 5]) = 5 ∧
    pyMax ((npDiff [0, 0, 0, 0, 0, 0, 2, 5, 5]).take 6) = Except.ok 2 ∧
    estimate_parameters [0, 1, 2, 3, 4, 5, 6, 7, 8] [0, 0, 0, 0, 0, 0, 2, 5, 5]
      = Except.ok (4, 3, 5) ∧
    (3 : ℚ) ≠ 2 ∧
    estimate_parameters ([] : List ℚ) ([] : List ℚ) = Except.error PyError.indexError := by
  refine ⟨?_, ?_, ?_, by norm_num, rfl⟩
  · norm_num [npDiff, inflExceeds, exceedsB, listMean, listVar, List.findIdx, List.findIdx.go]
  · norm_num [npDiff, pyMax]
  · norm_num [estimate_parameters, npDiff, listMean, listVar, lagGrowthGo, exceedsB, pyMax,
      lagSlice, bumpIdx, List.getLast?, List.find?]

/-- Claim C3 (amended): for equal-length inputs, at the first index idx
whose difference exceeds the inflection threshold, with j the index
bumped from 0 to 1, the returned lag time is the timestamp at j - 1 and
the returned growth rate is the maximum of the slice diffs[j - 1 : -1],
the differences from the lag index through the second-to-last one (not
the maximum up to and including idx); when no difference exceeds the
threshold and the input is nonempty, lag time and growth rate are both
0 (an empty input instead raises IndexError). -/
theorem estimate_parameters_first_inflection (ts ms : List ℚ) (hlen : ts.length = ms.length) :
    (∀ idx, idx < (npDiff ms).length →
      inflExceeds ms ((npDiff ms).getD idx 0) = true →
      (∀ k, k < idx → inflExceeds ms ((npDiff ms).getD k 0) = false) →
      ∃ g cc, estimate_parameters ts ms = Except.ok (ts.getD (bumpIdx idx - 1) 0, g, cc) ∧
        g ∈ lagSlice (npDiff ms) (bumpIdx idx) ∧
        ∀ x ∈ lagSlice (npDiff ms) (bumpIdx idx), x ≤ g) ∧
    (ms ≠ [] →
      (∀ k, k < (npDiff ms).length → inflExceeds ms ((npDiff ms).getD k 0) = false) →
      ∃ cc, estimate_parameters ts ms = Except.ok (0, 0, cc)) := by
  constructor
  · intro idx hidx hex hfirst
    simp only [inflExceeds] at hex hfirst
    have h2 : 2 ≤ (npDiff ms).length := by
      rcases Nat.eq_zero_or_pos idx with rfl | hpos
      · exact length_two_of_exceed_head (npDiff ms) _ (by omega) hex
      · omega
    have hmsne : ms ≠ [] := by
      intro h
      rw [h] at hidx
      simp [npDiff] at hidx
    obtain ⟨last, hlast⟩ := Option.isSome_iff_exists.mp (List.getLast?_isSome.mpr hmsne)
    obtain ⟨g, hg, hmem, hbound⟩ :=
      pyMax_spec _ (lagSlice_ne_nil (npDiff ms) (bumpIdx idx) (bumpIdx_ge_one idx)
        (bumpIdx_succ_le idx (npDiff ms).length hidx h2))
    rw [estimate_parameters_unfold ts ms hlen last hlast,
      lagGrowthGo_found ts (npDiff ms) (listMean (npDiff ms)) (listVar (npDiff ms)) idx hidx
        hex (npDiff ms) 0 rfl (by omega) (fun k h1 h2 => hfirst k h2), hg]
    exact ⟨g, _, rfl, hmem, hbound⟩
  · intro hmsne hnone
    simp only [inflExceeds] at hnone
    obtain ⟨last, hlast⟩ := Option.isSome_iff_exists.mp (List.getLast?_isSome.mpr hmsne)
    rw [estimate_parameters_unfold ts ms hlen last hlast,
      lagGrowthGo_notfound ts (npDiff ms) (listMean (npDiff ms)) (listVar (npDiff ms))
        (npDiff ms) 0 rfl (fun k h1 h2 => hnone k h2)]
    exact ⟨_, rfl⟩

/-- Witness for claim C3 (amended) on the counterexample input, where
the first inflection hit is at index 5. -/
theorem estimate_parameters_first_inflection_witness :
    ∃ g cc,
      estimate_parameters [0, 1, 2, 3, 4, 5, 6, 7, 8] [0, 0, 0, 0, 0, 0, 2, 5, 5]
        = Except.ok (([0, 1, 2, 3, 4, 5, 6, 7, 8] : List ℚ).getD (bumpIdx 5 - 1) 0, g, cc) ∧
      g ∈ lagSlice (npDiff [0, 0, 0, 0, 0, 0, 2, 5, 5]) (bumpIdx 5) ∧
      ∀ x ∈ lagSlice (npDiff [0, 0, 0, 0, 0, 0, 2, 5, 5]) (bumpIdx 5), x ≤ g :=
  (estimate_parameters_first_inflection [0, 1, 2, 3, 4, 5, 6, 7, 8] [0, 0, 0, 0, 0, 0, 2, 5, 5]
      (by norm_num)).1 5
    (by norm_num [npDiff])
    (by norm_num [inflExceeds, exceedsB, npDiff, listMean, listVar])
    (by
      intro k hk
      interval_cases k <;>
        norm_num [inflExceeds, exceedsB, npDiff, listMean, listVar])

/-- Claim C6: estimate_parameters fails with ValueError exactly when the
timestamps and measurements collections have different lengths; the
length comparison is the only checked precondition, so no other input
shape produces a ValueError (an empty pair of inputs fails later with an
unchecked IndexError, not a ValueError). -/
theorem estimate_parameters_length_guard (ts ms : List ℚ) :
    estimate_parameters ts ms = Except.error PyError.valueError ↔ ts.length ≠ ms.length := by
  constructor
  · intro h
    by_contra hne
    have hlen : ts.length = ms.length := hne
    rcases hms : ms.getLast? with _ | last
    · have hend : estimate_parameters ts ms = Except.error PyError.indexError := by
        simp only [estimate_parameters, hlen, ne_eq, not_true_eq_false, if_false, hms]
      rw [hend] at h
      have hinj := Except.error.inj h
      cases hinj
    · rw [estimate_parameters_unfold ts ms hlen last hms] at h
      rcases hgo : lagGrowthGo ts (npDiff ms) (listMean (npDiff ms)) (listVar (npDiff ms))
          0 (npDiff ms) with e | p
      · rw [hgo] at h
        simp only [Except.error.injEq] at h
        exact lagGrowthGo_no_valueError ts (npDiff ms) (listVar (npDiff ms)) (npDiff ms) 0 rfl
          (by rw [hgo, h])
      · obtain ⟨lag, growth⟩ := p
        rw [hgo] at h
        simp at h
  · intro h
    simp [estimate_parameters, h]

/-- Claim C10: when the very first difference is the one exceeding the
inflection threshold, the zero index is bumped to one, so the returned
lag time is the first timestamp and the timestamp lookup index is
never negative (no wrap-around is possible in the model, whose indices
are natural numbers). -/
theorem estimate_parameters_first_diff_lag (ts ms : List ℚ) (hlen : ts.length = ms.length)
    (hne : 0 < (npDiff ms).length)
    (hex : inflExceeds ms ((npDiff ms).getD 0 0) = true) :
    ∃ g cc, estimate_parameters ts ms = Except.ok (ts.getD 0 0, g, cc) := by
  simp only [inflExceeds] at hex
  have h2 : 2 ≤ (npDiff ms).length := length_two_of_exceed_head (npDiff ms) _ hne hex
  have hmsne : ms ≠ [] := by
    intro h
    rw [h] at hne
    simp [npDiff] at hne
  obtain ⟨last, hlast⟩ := Option.isSome_iff_exists.mp (List.getLast?_isSome.mpr hmsne)
  obtain ⟨g, hg, hmem, hbound⟩ :=
    pyMax_spec _ (lagSlice_ne_nil (npDiff ms) (bumpIdx 0) (bumpIdx_ge_one 0)
      (bumpIdx_succ_le 0 (npDiff ms).length hne h2))
  rw [estimate_parameters_unfold ts ms hlen last hlast,
    lagGrowthGo_found ts (npDiff ms) (listMean (npDiff ms)) (listVar (npDiff ms)) 0 hne hex
      (npDiff ms) 0 rfl le_rfl (fun k h1 h2 => absurd h2 (Nat.not_lt_zero k)), hg]
  exact ⟨g, _, rfl⟩

/-- Witness for claim C10: on timestamps [10, 11, 12, 13, 14] and
measurements [0, 5, 5, 5, 5] the first difference, 5, exceeds the
threshold, and the returned lag time is the first timestamp, 10. -/
theorem estimate_parameters_first_diff_lag_witness :
    ∃ g cc,
      estimate_parameters [10, 11, 12, 13, 14] [0, 5, 5, 5, 5]
        = Except.ok (([10, 11, 12, 13, 14] : List ℚ).getD 0 0, g, cc) :=
  estimate_parameters_first_diff_lag [10, 11, 12, 13, 14] [0, 5, 5, 5, 5]
    (by norm_num) (by norm_num [npDiff])
    (by norm_num [inflExceeds, exceedsB, npDiff, listMean, listVar])

lemma index_number_to_coordinate_pair (index rows cols : ℤ) :
    index_number_to_coordinate index (rows, cols) =
      if index < 1 ∨ rows < 1 ∨ cols < 1 then Except.error PyError.valueError
      else if rows < Int.fdiv (index - 1) cols + 1 ∨ cols < Int.fmod (index - 1) cols + 1
        then Except.error PyError.indexError
      else Except.ok (Int.fdiv (index - 1) cols + 1, Int.fmod (index - 1) cols + 1) := rfl

/-- Claim C9: for a lattice with rows, cols at least 1 and
1 <= index <= rows * cols, index_number_to_coordinate returns a
coordinate (r, c) with 1 <= r <= rows, 1 <= c <= cols and
(r - 1) * cols + c = index, raising no error; it raises ValueError when
index, rows or cols is below 1, and IndexError when the computed
coordinate would exceed the lattice size. -/
theorem index_number_to_coordinate_spec (index rows cols : ℤ) :
    ((index < 1 ∨ rows < 1 ∨ cols < 1) →
      index_number_to_coordinate index (rows, cols) = Except.error PyError.valueError) ∧
    (1 ≤ index → 1 ≤ rows → 1 ≤ cols → index ≤ rows * cols →
      ∃ r c, index_number_to_coordinate index (rows, cols) = Except.ok (r, c) ∧
        1 ≤ r ∧ r ≤ rows ∧ 1 ≤ c ∧ c ≤ cols ∧ (r - 1) * cols + c = index) ∧
    (1 ≤ index → 1 ≤ rows → 1 ≤ cols → rows * cols < index →
      index_number_to_coordinate index (rows, cols) = Except.error PyError.indexError) := by
  refine ⟨?_, ?_, ?_⟩
  · intro h
    rw [index_number_to_coordinate_pair, if_pos h]
  · intro h1 h2 h3 h4
    have hcols : (0 : ℤ) < cols := by omega
    have hfd : Int.fdiv (index - 1) cols = (index - 1) / cols := Int.fdiv_eq_ediv _ (by omega)
    have hfm : Int.fmod (index - 1) cols = (index - 1) % cols := Int.fmod_eq_emod _ (by omega)
    have hrm0 : 0 ≤ (index - 1) % cols := Int.emod_nonneg _ (by omega)
    have hrmlt : (index - 1) % cols < cols := Int.emod_lt_of_pos _ hcols
    have hdm : cols * ((index - 1) / cols) + (index - 1) % cols = index - 1 :=
      Int.ediv_add_emod _ _
    have hq0 : 0 ≤ (index - 1) / cols := Int.ediv_nonneg (by omega) (by omega)
    have hqlt : (index - 1) / cols < rows :=
      (Int.ediv_lt_iff_lt_mul hcols).mpr (by linarith)
    refine ⟨(index - 1) / cols + 1, (index - 1) % cols + 1, ?_,
      by linarith, by linarith, by linarith, by linarith, by linear_combination hdm⟩
    rw [index_number_to_coordinate_pair, if_neg (by omega), hfd, hfm,
      if_neg (by simp only [not_or, not_lt]; exact ⟨by linarith, by linarith⟩)]
  · intro h1 h2 h3 h4
    have hcols : (0 : ℤ) < cols := by omega
    have hfd : Int.fdiv (index - 1) cols = (index - 1) / cols := Int.fdiv_eq_ediv _ (by omega)
    have hq : rows ≤ (index - 1) / cols :=
      (Int.le_ediv_iff_mul_le hcols).mpr (by linarith)
    rw [index_number_to_coordinate_pair, if_neg (by omega), hfd,
      if_pos (Or.inl (by linarith))]

/-- Witness for claim C9: index 5 in a 2 by 3 lattice is row 2,
column 2. -/
theorem index_number_to_coordinate_spec_witness :
    ∃ r c, index_number_to_coordinate 5 (2, 3) = Except.ok (r, c) ∧
      1 ≤ r ∧ r ≤ 2 ∧ 1 ≤ c ∧ c ≤ 3 ∧ (r - 1) * 3 + c = 5 :=
  (index_number_to_coordinate_spec 5 2 3).2.1 (by norm_num) (by norm_num) (by norm_num)
    (by norm_num)

end ScanLag
